import Mathlib

/-!
Shallow embedding of the keyed in-memory state stores and entity mutation
operations of the chatkit-advanced-samples backends, together with proofs of
the stated behavioural properties.

Python `dict`s are modelled as insertion-ordered association lists, Python
`int`s as `Int`, and each inline `random.choice` as an explicit parameter
carrying the drawn outcome.  Times (`datetime.now()` etc.) are opaque
parameters.  Where Python object identity matters (stores that hand out live
references versus defensive clones) the heap of objects is modelled
explicitly: an object is an address into a list of values, allocation
appends, and an in-place field assignment is a write at an address.
-/

/-- Python truthiness of an `str | None` value: `None` and `""` are falsy. -/
def optStrTruthy : Option String → Bool
  | none => false
  | some s => !s.isEmpty

/-- `d.get(k)` on a Python dict, modelled as first-match association lookup. -/
def pyDictGet {β : Type} (d : List (String × β)) (k : String) : Option β :=
  match d with
  | [] => none
  | (k', v) :: rest => if k' = k then some v else pyDictGet rest k

/-- `d[k] = v` on a Python dict: replace the value of an existing key in
place (keeping its position) or append a fresh binding. -/
def pyDictSet {β : Type} (d : List (String × β)) (k : String) (v : β) :
    List (String × β) :=
  match d with
  | [] => [(k, v)]
  | (k', v') :: rest =>
    if k' = k then (k', v) :: rest else (k', v') :: pyDictSet rest k v

/-- `str.upper()`, character by character (defined over the character list so
that it evaluates by kernel reduction). -/
def pyUpper (s : String) : String := ⟨s.data.map Char.toUpper⟩

/-- `str.strip()`: drop whitespace from both ends (again defined over the
character list so that it evaluates by kernel reduction). -/
def pyStrip (s : String) : String :=
  ⟨((s.data.dropWhile Char.isWhitespace).reverse.dropWhile Char.isWhitespace).reverse⟩

namespace CatLounge

/-! ### `cat_state.py` (cat-lounge example) -/

def STATUS_MIN : Int := 0
def STATUS_MAX : Int := 10

def COLOR_PATTERNS : List String :=
  ["black", "calico", "colorpoint", "tabby", "white"]

def _clamp (value : Int) : Int := max STATUS_MIN (min STATUS_MAX value)

/-- The `CatState` dataclass.  `updated_at` is an opaque timestamp (the
dataclass default `datetime.utcnow()` is modelled as `0`; `touch` overwrites
it with a caller-supplied current time). -/
structure CatState where
  name : String := "Unnamed Cat"
  energy : Int := 6
  happiness : Int := 6
  cleanliness : Int := 6
  age : Int := 2
  color_pattern : Option String := none
  updated_at : Nat := 0
deriving DecidableEq

def CatState.touch (s : CatState) (now : Nat) : CatState :=
  { s with updated_at := now }

/-- `feed(amount=3)`; `dirty` is the drawn value of `choice([True, False])`. -/
def CatState.feed (s : CatState) (dirty : Bool) (now : Nat)
    (amount : Int := 3) : CatState :=
  let s := { s with energy := _clamp (s.energy + amount) }
  let s := { s with happiness := _clamp (s.happiness + 1) }
  let s := if dirty then { s with cleanliness := _clamp (s.cleanliness - 1) } else s
  s.touch now

/-- `play(boost=2)`; `dirty` is the drawn value of `choice([True, False])`. -/
def CatState.play (s : CatState) (dirty : Bool) (now : Nat)
    (boost : Int := 2) : CatState :=
  let s := { s with happiness := _clamp (s.happiness + boost) }
  let s := { s with energy := _clamp (s.energy - 1) }
  let s := if dirty then { s with cleanliness := _clamp (s.cleanliness - 1) } else s
  s.touch now

/-- `clean(boost=3)`; `gloomy` is the drawn value of `choice([True, False])`. -/
def CatState.clean (s : CatState) (gloomy : Bool) (now : Nat)
    (boost : Int := 3) : CatState :=
  let s := { s with cleanliness := _clamp (s.cleanliness + boost) }
  let s := if gloomy then { s with happiness := _clamp (s.happiness - 1) } else s
  s.touch now

/-- `rename(value)`: sets the name unconditionally; when `color_pattern` is
falsy it is set to `choice(COLOR_PATTERNS)`, modelled by the drawn index
`pick`. -/
def CatState.rename (s : CatState) (value : String) (pick : Fin 5) (now : Nat) :
    CatState :=
  let s := { s with name := value }
  let s :=
    if optStrTruthy s.color_pattern then s
    else { s with color_pattern := some (COLOR_PATTERNS.getD pick.1 "") }
  s.touch now

/-- The argument of `set_age(value)`: Python annotates `int | None`, and the
`isinstance` check also rejects values of any other runtime type. -/
inductive SetAgeArg where
  | noneV : SetAgeArg
  | intV : Int → SetAgeArg
  | nonIntV : SetAgeArg
deriving DecidableEq

/-- `set_age(value)`: acts only `if value and isinstance(value, int)`, i.e.
only for a truthy (nonzero) integer, clamping it to `[1, 15]`. -/
def CatState.set_age (s : CatState) (value : SetAgeArg) (now : Nat) : CatState :=
  match value with
  | .intV v => if v = 0 then s else ({ s with age := min (max v 1) 15 }).touch now
  | _ => s

/-- `clone()` (`dataclasses.replace(self)`): a fresh object with equal fields;
at the value level it is the identity. -/
def CatState.clone (s : CatState) : CatState := s

/-- The client-facing payload dict built by `to_payload`. -/
structure CatPayload where
  name : String
  energy : Int
  happiness : Int
  cleanliness : Int
  age : Int
  colorPattern : Option String
  updatedAt : Nat
  threadId : Option String
deriving DecidableEq

/-- `to_payload(thread_id=None)`: camelCase payload; `threadId` is included
only when `thread_id` is truthy. -/
def CatState.to_payload (s : CatState) (thread_id : Option String := none) :
    CatPayload :=
  { name := s.name
    energy := s.energy
    happiness := s.happiness
    cleanliness := s.cleanliness
    age := s.age
    colorPattern := s.color_pattern
    updatedAt := s.updated_at
    threadId := if optStrTruthy thread_id then thread_id else none }

/-! Sequences of the stat-changing operations `feed` / `play` / `clean`,
with their `amount` / `boost` argument and the drawn random outcome. -/

inductive CatOp where
  | feed (amount : Int) (dirty : Bool) (now : Nat)
  | play (boost : Int) (dirty : Bool) (now : Nat)
  | clean (boost : Int) (gloomy : Bool) (now : Nat)

def applyCatOp (s : CatState) : CatOp → CatState
  | .feed amount dirty now => s.feed dirty now amount
  | .play boost dirty now => s.play dirty now boost
  | .clean boost gloomy now => s.clean gloomy now boost

def applyCatOps (s : CatState) (ops : List CatOp) : CatState :=
  ops.foldl applyCatOp s

/-- All three numeric stats lie within `[STATUS_MIN, STATUS_MAX]`. -/
def CatState.statsInRange (s : CatState) : Prop :=
  (STATUS_MIN ≤ s.energy ∧ s.energy ≤ STATUS_MAX) ∧
  (STATUS_MIN ≤ s.happiness ∧ s.happiness ≤ STATUS_MAX) ∧
  (STATUS_MIN ≤ s.cleanliness ∧ s.cleanliness ≤ STATUS_MAX)

instance (s : CatState) : Decidable s.statsInRange := by
  unfold CatState.statsInRange; infer_instance

/-! ### `server.py` (cat-lounge): the select-name action's effect on the cat -/

/-- The cat-entity effect of `CatAssistantServer._handle_select_name_action`:
the payload name is stripped; an empty name short-circuits; when the current
name differs from the sentinel `"Unnamed Cat"` the handler refuses to mutate
(`is_already_named`); otherwise it runs `mutate(thread_id, s.rename(name))`.
(The agent tool `set_cat_name` applies the same `!= "Unnamed Cat"` guard.) -/
def handleSelectName (s : CatState) (rawName : String) (pick : Fin 5)
    (now : Nat) : CatState :=
  let name := pyStrip rawName
  if name.isEmpty then s
  else if s.name ≠ "Unnamed Cat" then s
  else s.rename name pick now

/-! ### `cat_store.py`: mutate-under-lock store for `CatState`

The store holds one `CatState` object per thread id.  Object identity is
modelled by an explicit heap: `states` maps a thread id to the address of the
store's live object, `load`/`mutate` return the address of a freshly
allocated `clone()`.  The `asyncio.Lock` makes each `load`/`mutate` body
atomic; a concurrent execution of many calls is therefore equivalent to
running them in some sequential order, which is how concurrency is modelled
below. -/

structure CatStore where
  states : List (String × Nat) := []
  heap : List CatState := []

def CatStore.read (st : CatStore) (a : Nat) : CatState := st.heap.getD a {}

def CatStore.write (st : CatStore) (a : Nat) (v : CatState) : CatStore :=
  { st with heap := st.heap.set a v }

def CatStore.alloc (st : CatStore) (v : CatState) : CatStore × Nat :=
  ({ st with heap := st.heap ++ [v] }, st.heap.length)

/-- `_ensure(thread_id)`: return the address of the live entity, constructing
and inserting `CatState()` on first access. -/
def CatStore._ensure (st : CatStore) (tid : String) : CatStore × Nat :=
  match pyDictGet st.states tid with
  | some a => (st, a)
  | none =>
    let p := st.alloc {}
    ({ p.1 with states := pyDictSet p.1.states tid p.2 }, p.2)

/-- `load(thread_id)`: ensure existence, return a fresh `clone()` (a newly
allocated object carrying a copy of the live entity's fields). -/
def CatStore.load (st : CatStore) (tid : String) : CatStore × Nat :=
  let p := st._ensure tid
  p.1.alloc ((p.1.read p.2).clone)

/-- `mutate(thread_id, mutator)`: ensure existence, apply the mutator to the
live entity in place, return a fresh `clone()` of the result. -/
def CatStore.mutate (st : CatStore) (tid : String) (f : CatState → CatState) :
    CatStore × Nat :=
  let p := st._ensure tid
  let st1 := p.1.write p.2 (f (p.1.read p.2))
  st1.alloc ((st1.read p.2).clone)

/-- The store-internal entity value for a key, if present. -/
def CatStore.valueOf (st : CatStore) (tid : String) : Option CatState :=
  (pyDictGet st.states tid).map st.read

def CatStore.loadStore (st : CatStore) (tid : String) : CatStore :=
  (st.load tid).1

/-- The field values of the snapshot object a `load` call hands back. -/
def CatStore.loadView (st : CatStore) (tid : String) : CatState :=
  let p := st.load tid
  p.1.read p.2

/-- Store well-formedness: thread ids are unique, distinct keys hold distinct
objects, and every held address is allocated. -/
structure CatStore.Inv (st : CatStore) : Prop where
  keys_nodup : (st.states.map Prod.fst).Nodup
  addrs_nodup : (st.states.map Prod.snd).Nodup
  addrs_lt : ∀ p ∈ st.states, p.2 < st.heap.length

/-- Sequential executions of `mutate` calls.  Because the `asyncio.Lock` is
held for the whole read-modify-return body and that body contains no
suspension point, any concurrent execution of a set of `mutate` calls on one
store instance is observationally a sequential execution in some order; the
list below is that order. -/
def CatStore.runMutates (st : CatStore)
    (ops : List (String × (CatState → CatState))) : CatStore :=
  ops.foldl (fun s op => (s.mutate op.1 op.2).1) st

/-- The counter-increment mutator of the lost-update test: a caller-supplied
Python callable bumping the `energy` field by one (no clamp). -/
def incEnergy : CatState → CatState := fun s => { s with energy := s.energy + 1 }

end CatLounge

namespace Facts

/-! ### `facts.py`: `Fact` and `FactStore`

Unlike `CatStore`, every accessor of `FactStore` returns the stored object
itself, not a copy, so the heap model matters here: `create`, `mark_saved`
and `get` hand back the address of the store-internal object. -/

inductive FactStatus where
  | PENDING : FactStatus
  | SAVED : FactStatus
  | DISCARDED : FactStatus
deriving DecidableEq

structure Fact where
  text : String
  status : FactStatus := .PENDING
  id : String := ""
  created_at : Nat := 0
deriving DecidableEq

structure FactStore where
  facts : List (String × Nat) := []
  order : List String := []
  heap : List Fact := []

def FactStore.read (st : FactStore) (a : Nat) : Fact :=
  st.heap.getD a { text := "" }

def FactStore.write (st : FactStore) (a : Nat) (v : Fact) : FactStore :=
  { st with heap := st.heap.set a v }

/-- `create(text=...)`: construct a pending `Fact` (its uuid-derived id and
creation time are parameters), store it, append its id to the order list, and
return the stored object itself — a live reference, not a copy. -/
def FactStore.create (st : FactStore) (text newId : String) (now : Nat) :
    FactStore × Nat :=
  let fact : Fact := { text := text, id := newId, created_at := now }
  let a := st.heap.length
  ({ facts := pyDictSet st.facts newId a
     order := st.order ++ [newId]
     heap := st.heap ++ [fact] }, a)

/-- `mark_saved(fact_id)`: set `status = SAVED` on the stored object in place
and return that same object (again a live reference), or `None`. -/
def FactStore.mark_saved (st : FactStore) (fact_id : String) :
    FactStore × Option Nat :=
  match pyDictGet st.facts fact_id with
  | none => (st, none)
  | some a => (st.write a { st.read a with status := .SAVED }, some a)

/-- `get(fact_id)`: the stored object (live reference) if present. -/
def FactStore.get (st : FactStore) (fact_id : String) : Option Nat :=
  pyDictGet st.facts fact_id

/-- `list_saved()`: references to the saved facts, in insertion order. -/
def FactStore.list_saved (st : FactStore) : List Nat :=
  st.order.filterMap fun fid =>
    match pyDictGet st.facts fid with
    | some a => if (st.read a).status = .SAVED then some a else none
    | none => none

end Facts

namespace CustomerSupport

/-! ### `airline_state.py`: flight segments, customer profile, state manager -/

structure FlightSegment where
  flight_number : String
  date : String
  origin : String
  destination : String
  departure_time : String
  arrival_time : String
  seat : String
  status : String := "Scheduled"
deriving DecidableEq

def FlightSegment.cancel (s : FlightSegment) : FlightSegment :=
  { s with status := "Cancelled" }

def FlightSegment.change_seat (s : FlightSegment) (new_seat : String) :
    FlightSegment :=
  { s with seat := new_seat }

structure LoyaltyProgress where
  current_tier : String
  next_tier : String
  points_earned : Int
  points_required : Int
  segments_flown : Int
  segments_required : Int
  renewal_date : String
deriving DecidableEq

structure TimelineEntry where
  timestamp : String
  kind : String
  entry : String
deriving DecidableEq

structure CustomerProfile where
  customer_id : String
  name : String
  loyalty_status : String
  loyalty_id : String
  email : String
  phone : String
  home_airport : String
  preferred_routes : List String
  travel_summary : String
  tier_benefits : List String
  loyalty_progress : LoyaltyProgress
  segments : List FlightSegment
  bags_checked : Int := 0
  meal_preference : Option String := none
  special_assistance : Option String := none
  timeline : List TimelineEntry := []
  spotlight : List String := []
  booked_widget_ids : List String := []
deriving DecidableEq

/-- `log(entry, kind)`: prepend a timeline record stamped `_now_iso()`. -/
def CustomerProfile.log (p : CustomerProfile) (entry : String) (kind : String)
    (now : String) : CustomerProfile :=
  { p with timeline := { timestamp := now, kind := kind, entry := entry } :: p.timeline }

/-- `AirlineStateManager._create_default_state`, with the log timestamp as a
parameter. -/
def _create_default_state (now : String) : CustomerProfile :=
  let segments : List FlightSegment :=
    [{ flight_number := "OA476", date := "2025-10-02", origin := "SFO",
       destination := "JFK", departure_time := "08:05", arrival_time := "16:35",
       seat := "14A" },
     { flight_number := "OA477", date := "2025-10-10", origin := "JFK",
       destination := "SFO", departure_time := "18:50", arrival_time := "22:15",
       seat := "15C" }]
  let profile : CustomerProfile :=
    { customer_id := "cus_98421"
      name := "Jordan Miles"
      loyalty_status := "Aviator Gold"
      loyalty_id := "APL-204981"
      email := "jordan.miles@example.com"
      phone := "+1 (415) 555-9214"
      home_airport := "SFO"
      preferred_routes := ["SFO → JFK", "SFO → CDG", "SFO → HND"]
      travel_summary := "Product leader splitting time between San Francisco and New York with quarterly long-haul art trips."
      tier_benefits :=
        ["Complimentary Premium Plus upgrades on transcon routes",
         "4 lounge guest passes every quarter",
         "15% off buy-on-board food & beverage",
         "Dedicated rebooking desk with WhatsApp follow-up"]
      loyalty_progress :=
        { current_tier := "Gold", next_tier := "Platinum"
          points_earned := 42000, points_required := 60000
          segments_flown := 18, segments_required := 32
          renewal_date := "2026-02-01" }
      segments := segments
      spotlight :=
        ["Prefers window seats on daytime flights",
         "Collects modern art city guides",
         "Enjoys Michelin Bib Gourmand discoveries"] }
  let profile := profile.log "Itinerary imported from confirmation LL0EZ6." "system" now
  let profile := profile.log "Waived change fees for October trip." "success" now
  profile.log "Added note: enjoys single-origin drip coffee." "info" now

/-- The manager's `_states` dict (no lock in this store). -/
def AirlineStateManager := List (String × CustomerProfile)

/-- `get_profile(thread_id)`: return the stored profile, creating the default
one on first access. -/
def get_profile (m : AirlineStateManager) (thread_id : String) (now : String) :
    AirlineStateManager × CustomerProfile :=
  match pyDictGet m thread_id with
  | some p => (m, p)
  | none =>
    let p := _create_default_state now
    (pyDictSet m thread_id p, p)

/-- `_is_valid_seat(seat)`: strip and uppercase; at least 2 characters, the
leading row all digits, the trailing character a letter. -/
def _is_valid_seat (seat : String) : Bool :=
  let seat := pyUpper (pyStrip seat)
  if seat.length < 2 then false
  else
    let row := seat.toList.dropLast
    match seat.toList.getLast? with
    | some letter => row.all Char.isDigit && letter.isAlpha
    | none => false

/-- Seat validity as the spec words it: after trimming and uppercasing, at
least 2 characters, a trailing alphabetic letter, and an all-digit leading
row.  (Stated separately from `_is_valid_seat` so the two can be compared.) -/
def seatSpecValid (seat : String) : Bool :=
  let t := pyUpper (pyStrip seat)
  decide (2 ≤ t.length) &&
    (match t.toList.getLast? with
     | some c => c.isAlpha
     | none => false) &&
    t.toList.dropLast.all Char.isDigit

/-- `_find_segment(profile, flight_number)`: first segment whose upper-cased
flight number matches the normalised query. -/
def _find_segment (p : CustomerProfile) (flight_number : String) :
    Option FlightSegment :=
  let fn := pyStrip (pyUpper flight_number)
  p.segments.find? (fun seg => pyUpper seg.flight_number == fn)

/-- In-place `segment.change_seat(...)` on the first matching segment. -/
def _setSeatFirst (segs : List FlightSegment) (fn : String)
    (new_seat : String) : List FlightSegment :=
  match segs with
  | [] => []
  | seg :: rest =>
    if pyUpper seg.flight_number == fn then seg.change_seat new_seat :: rest
    else seg :: _setSeatFirst rest fn new_seat

/-- `change_seat(thread_id, flight_number, seat)`: validate, find the
segment, store `seat.upper()`, log; on failure raise `ValueError` (modelled
as `.error`) leaving the (ensured) profile otherwise untouched. -/
def change_seat (m : AirlineStateManager)
    (thread_id flight_number seat : String) (now : String) :
    AirlineStateManager × Except String String :=
  let q := get_profile m thread_id now
  let m := q.1
  let profile := q.2
  if ¬_is_valid_seat seat then
    (m, .error "Seat must be a row number followed by a letter, for example 12C.")
  else
    match _find_segment profile flight_number with
    | none =>
      (m, .error ("Flight " ++ flight_number ++ " is not on the customer's itinerary."))
    | some segment =>
      let previous := segment.seat
      let fn := pyStrip (pyUpper flight_number)
      let profile := { profile with segments := _setSeatFirst profile.segments fn (pyUpper seat) }
      let profile := profile.log
        ("Seat changed on " ++ segment.flight_number ++ " from " ++ previous ++
          " to " ++ pyUpper seat ++ ".") "success" now
      (pyDictSet m thread_id profile,
        .ok ("Seat updated to " ++ pyUpper seat ++ " on flight " ++
          segment.flight_number ++ "."))

/-- The stored seat of a flight on a thread's profile, for stating frame
conditions. -/
def seatOf (m : AirlineStateManager) (thread_id flight_number : String) :
    Option String :=
  (pyDictGet m thread_id).bind fun p =>
    (_find_segment p flight_number).map FlightSegment.seat

/-! ### `server.py` dispatch tables -/

/-- The `_action_handlers` table built in `CustomerSupportServer.__init__`,
with the handler bodies abstract.  A handler may emit events or raise
(`.error`). -/
def customerSupportHandlers {α ε : Type}
    (meal flight confirm modify accept decline rebook : α → Except String (List ε)) :
    List (String × (α → Except String (List ε))) :=
  [("support.set_meal_preference", meal),
   ("flight.select", flight),
   ("booking.confirm_selection", confirm),
   ("booking.modify_request", modify),
   ("upsell.accept", accept),
   ("upsell.decline", decline),
   ("rebook.select_option", rebook)]

/-- `CustomerSupportServer.action`: `self._action_handlers.get(action.type)`;
a missing handler returns with zero events and no error. -/
def CustomerSupportServer.action {α ε : Type}
    (handlers : List (String × (α → Except String (List ε))))
    (ty : String) (payload : α) : Except String (List ε) :=
  match pyDictGet handlers ty with
  | none => .ok []
  | some h => h payload

end CustomerSupport

namespace CatLounge

/-- `CatAssistantServer.action`: only `"cats.select_name"` is dispatched;
any other action type falls through to the bare `return` (zero events, no
error). -/
def CatAssistantServer.action {α ε : Type}
    (selectName : α → Except String (List ε))
    (ty : String) (payload : α) : Except String (List ε) :=
  if ty = "cats.select_name" then selectName payload else .ok []

end CatLounge

namespace Marketing

/-! ### `ad_assets.py`: `AdAsset` and `AdAssetStore` -/

structure AdAsset where
  product : String
  style : String
  tone : String
  pitch : String
  headline : String
  primary_text : String
  call_to_action : String
  image_prompts : List String
  images : List String := []
  id : String := ""
  created_at : Nat := 0
deriving DecidableEq

structure AdAssetStore where
  assets : List (String × AdAsset) := []
  order : List String := []

/-- The `if asset_id and asset_id in self._assets` test of `create`: a truthy
(non-empty) `asset_id` naming an existing asset, together with that asset. -/
def assetIdHit (st : AdAssetStore) (asset_id : Option String) :
    Option (String × AdAsset) :=
  match asset_id with
  | some aid =>
    if aid.isEmpty then none else (pyDictGet st.assets aid).map (fun a => (aid, a))
  | none => none

/-- The id a freshly built asset ends up with: the generated uuid default,
overridden by `asset.id = asset_id` when `asset_id` is truthy. -/
def effectiveId (asset_id : Option String) (genId : String) : String :=
  match asset_id with
  | some aid => if aid.isEmpty then genId else aid
  | none => genId

/-- `create(...)`: update the existing asset's fields in place when a truthy
`asset_id` is already stored (keeping `images` when the argument is `None`);
otherwise build a new asset (its generated uuid id is the parameter `genId`,
overridden by a truthy `asset_id`), store it, and append its id to the order
list unless already present. -/
def AdAssetStore.create (st : AdAssetStore)
    (product style tone pitch headline primary_text call_to_action : String)
    (image_prompts : List String) (images : Option (List String))
    (asset_id : Option String) (genId : String) (now : Nat) :
    AdAssetStore × AdAsset :=
  match assetIdHit st asset_id with
  | some (aid, asset) =>
    let asset := { asset with
      product := product, style := style, tone := tone, pitch := pitch
      headline := headline, primary_text := primary_text
      call_to_action := call_to_action, image_prompts := image_prompts
      images := match images with | some imgs => imgs | none => asset.images }
    (⟨pyDictSet st.assets aid asset, st.order⟩, asset)
  | none =>
    let asset : AdAsset :=
      { product := product, style := style, tone := tone, pitch := pitch
        headline := headline, primary_text := primary_text
        call_to_action := call_to_action, image_prompts := image_prompts
        images := match images with | some imgs => imgs | none => []
        id := effectiveId asset_id genId
        created_at := now }
    let newAssets := pyDictSet st.assets asset.id asset
    let newOrder :=
      if asset.id ∈ st.order then st.order else st.order ++ [asset.id]
    (⟨newAssets, newOrder⟩, asset)

/-- `list_saved()`: assets in insertion order. -/
def AdAssetStore.list_saved (st : AdAssetStore) : List AdAsset :=
  st.order.filterMap (fun aid => pyDictGet st.assets aid)

/-- `append_image(asset_id, image)`: add an image to the stored asset unless
already present. -/
def AdAssetStore.append_image (st : AdAssetStore) (asset_id image : String) :
    AdAssetStore × Option AdAsset :=
  match pyDictGet st.assets asset_id with
  | none => (st, none)
  | some asset =>
    let asset :=
      if image ∈ asset.images then asset
      else { asset with images := asset.images ++ [image] }
    (⟨pyDictSet st.assets asset_id asset, st.order⟩, some asset)

/-- `AdAssetStore` well-formedness: the order list has no duplicate ids and
lists exactly the stored ids. -/
structure AdAssetStore.Inv (st : AdAssetStore) : Prop where
  order_nodup : st.order.Nodup
  mem_iff : ∀ aid, (pyDictGet st.assets aid).isSome ↔ aid ∈ st.order

end Marketing

/-! ## Proofs -/

/-! ### Association-list (Python dict) lemmas -/

theorem pyDictGet_append {β : Type} (d d' : List (String × β)) (k : String) :
    pyDictGet (d ++ d') k =
      match pyDictGet d k with
      | some v => some v
      | none => pyDictGet d' k := by
  induction d with
  | nil => simp [pyDictGet]
  | cons p rest ih =>
    obtain ⟨k', v⟩ := p
    by_cases h : k' = k <;> simp [pyDictGet, h, ih]

theorem pyDictGet_none_iff {β : Type} (d : List (String × β)) (k : String) :
    pyDictGet d k = none ↔ k ∉ d.map Prod.fst := by
  induction d with
  | nil => simp [pyDictGet]
  | cons p rest ih =>
    obtain ⟨k', v⟩ := p
    by_cases hk : k' = k
    · subst hk
      simp [pyDictGet]
    · have hk' : ¬k = k' := fun e => hk e.symm
      simp [pyDictGet, hk, hk', ih]

theorem pyDictGet_mem {β : Type} {d : List (String × β)} {k : String} {v : β}
    (h : pyDictGet d k = some v) : (k, v) ∈ d := by
  induction d with
  | nil => simp [pyDictGet] at h
  | cons p rest ih =>
    obtain ⟨k', v'⟩ := p
    by_cases hk : k' = k
    · simp [pyDictGet, hk] at h
      simp [hk, h]
    · simp [pyDictGet, hk] at h
      exact List.mem_cons_of_mem _ (ih h)

theorem pyDictSet_of_absent {β : Type} (d : List (String × β)) (k : String)
    (v : β) (h : pyDictGet d k = none) : pyDictSet d k v = d ++ [(k, v)] := by
  induction d with
  | nil => simp [pyDictSet]
  | cons p rest ih =>
    obtain ⟨k', v'⟩ := p
    by_cases hk : k' = k
    · simp [pyDictGet, hk] at h
    · simp [pyDictGet, hk] at h
      simp [pyDictSet, hk, ih h]

theorem pyDictGet_set_self {β : Type} (d : List (String × β)) (k : String)
    (v : β) : pyDictGet (pyDictSet d k v) k = some v := by
  induction d with
  | nil => simp [pyDictSet, pyDictGet]
  | cons p rest ih =>
    obtain ⟨k', v'⟩ := p
    by_cases hk : k' = k <;> simp [pyDictSet, pyDictGet, hk, ih]

theorem pyDictGet_set_ne {β : Type} (d : List (String × β)) (k k' : String)
    (v : β) (h : k' ≠ k) : pyDictGet (pyDictSet d k v) k' = pyDictGet d k' := by
  have h' : ¬k = k' := fun e => h e.symm
  induction d with
  | nil => simp [pyDictSet, pyDictGet, h']
  | cons p rest ih =>
    obtain ⟨k'', v''⟩ := p
    by_cases hk : k'' = k
    · subst hk
      simp [pyDictSet, pyDictGet, h']
    · simp [pyDictSet, pyDictGet, hk, ih]

/-! ### `List.getD` read/write lemmas for the object heaps -/

theorem getD_append_lt {α : Type} (l : List α) (x d : α) (a : Nat)
    (h : a < l.length) : (l ++ [x]).getD a d = l.getD a d := by
  induction l generalizing a with
  | nil => simp at h
  | cons y ys ih =>
    cases a with
    | zero => simp [List.getD]
    | succ a =>
      simp only [List.length_cons, Nat.succ_lt_succ_iff] at h
      simpa [List.getD] using ih a h

theorem getD_append_self {α : Type} (l : List α) (x d : α) :
    (l ++ [x]).getD l.length d = x := by
  induction l with
  | nil => simp [List.getD]
  | cons y ys ih => simp [List.getD, ih]

theorem getD_set_self {α : Type} (l : List α) (a : Nat) (v d : α)
    (h : a < l.length) : (l.set a v).getD a d = v := by
  induction l generalizing a with
  | nil => simp at h
  | cons y ys ih =>
    cases a with
    | zero => simp [List.getD]
    | succ a =>
      simp only [List.length_cons, Nat.succ_lt_succ_iff] at h
      simpa [List.getD] using ih a h

theorem getD_set_ne {α : Type} (l : List α) (a b : Nat) (v d : α)
    (h : a ≠ b) : (l.set a v).getD b d = l.getD b d := by
  induction l generalizing a b with
  | nil => simp
  | cons y ys ih =>
    cases a with
    | zero =>
      cases b with
      | zero => exact absurd rfl h
      | succ b => simp [List.getD]
    | succ a =>
      cases b with
      | zero => simp [List.getD]
      | succ b => simpa [List.getD] using ih a b (fun hab => h (by omega))

namespace CatLounge

/-! ### Basic facts about the heap operations and the store invariant -/

theorem CatStore.Inv.addr_ne {st : CatStore} (hinv : st.Inv) {k k' : String}
    {a a' : Nat} (hk : pyDictGet st.states k = some a)
    (hk' : pyDictGet st.states k' = some a') (hne : k ≠ k') : a ≠ a' := by
  intro hEq
  have h1 := pyDictGet_mem hk
  have h2 := pyDictGet_mem hk'
  have heq := List.inj_on_of_nodup_map hinv.addrs_nodup h1 h2 (by simpa using hEq)
  exact hne (congrArg Prod.fst heq)

theorem CatStore.alloc_inv (st : CatStore) (v : CatState) (hinv : st.Inv) :
    (st.alloc v).1.Inv := by
  refine ⟨hinv.keys_nodup, hinv.addrs_nodup, ?_⟩
  intro p hp
  have := hinv.addrs_lt p hp
  simp only [CatStore.alloc, List.length_append, List.length_singleton]
  omega

theorem CatStore.alloc_read_lt (st : CatStore) (v : CatState) (a : Nat)
    (ha : a < st.heap.length) : (st.alloc v).1.read a = st.read a := by
  show (st.heap ++ [v]).getD a ({} : CatState) = st.heap.getD a ({} : CatState)
  exact getD_append_lt _ _ _ _ ha

theorem CatStore.alloc_read_self (st : CatStore) (v : CatState) :
    (st.alloc v).1.read (st.alloc v).2 = v := by
  show (st.heap ++ [v]).getD st.heap.length ({} : CatState) = v
  exact getD_append_self _ _ _

theorem CatStore.alloc_valueOf (st : CatStore) (v : CatState) (hinv : st.Inv)
    (tid : String) : (st.alloc v).1.valueOf tid = st.valueOf tid := by
  unfold CatStore.valueOf
  have hs : (st.alloc v).1.states = st.states := rfl
  rw [hs]
  cases hget : pyDictGet st.states tid with
  | none => rfl
  | some a =>
    have ha : a < st.heap.length := hinv.addrs_lt _ (pyDictGet_mem hget)
    show some ((st.alloc v).1.read a) = some (st.read a)
    rw [CatStore.alloc_read_lt st v a ha]

theorem CatStore.write_inv (st : CatStore) (a : Nat) (v : CatState)
    (hinv : st.Inv) : (st.write a v).Inv := by
  refine ⟨hinv.keys_nodup, hinv.addrs_nodup, ?_⟩
  intro p hp
  have := hinv.addrs_lt p hp
  simpa [CatStore.write] using this

theorem CatStore.write_read_self (st : CatStore) (a : Nat) (v : CatState)
    (ha : a < st.heap.length) : (st.write a v).read a = v := by
  show (st.heap.set a v).getD a ({} : CatState) = v
  exact getD_set_self _ _ _ _ ha

theorem CatStore.write_read_ne (st : CatStore) (a b : Nat) (v : CatState)
    (h : a ≠ b) : (st.write a v).read b = st.read b := by
  show (st.heap.set a v).getD b ({} : CatState) = st.heap.getD b ({} : CatState)
  exact getD_set_ne _ _ _ _ _ h

theorem CatStore.write_valueOf_self (st : CatStore) (tid : String) (a : Nat)
    (v : CatState) (hinv : st.Inv) (ha : pyDictGet st.states tid = some a) :
    (st.write a v).valueOf tid = some v := by
  have halt : a < st.heap.length := hinv.addrs_lt _ (pyDictGet_mem ha)
  have hs : (st.write a v).states = st.states := rfl
  unfold CatStore.valueOf
  rw [hs, ha]
  show some ((st.write a v).read a) = some v
  rw [CatStore.write_read_self st a v halt]

theorem CatStore.write_valueOf_other (st : CatStore) (tid tid' : String)
    (a : Nat) (v : CatState) (hinv : st.Inv)
    (ha : pyDictGet st.states tid = some a) (hne : tid' ≠ tid) :
    (st.write a v).valueOf tid' = st.valueOf tid' := by
  have hs : (st.write a v).states = st.states := rfl
  unfold CatStore.valueOf
  rw [hs]
  cases hget : pyDictGet st.states tid' with
  | none => rfl
  | some a' =>
    have hane : a ≠ a' := hinv.addr_ne ha hget (fun e => hne e.symm)
    show some ((st.write a v).read a') = some (st.read a')
    rw [CatStore.write_read_ne st a a' v hane]

/-! ### Characterisation of `_ensure` -/

theorem CatStore.ensure_states_absent (st : CatStore) (tid : String)
    (h : pyDictGet st.states tid = none) :
    (st._ensure tid).1.states = st.states ++ [(tid, st.heap.length)] ∧
    (st._ensure tid).1.heap = st.heap ++ [({} : CatState)] ∧
    (st._ensure tid).2 = st.heap.length := by
  unfold CatStore._ensure
  rw [h]
  refine ⟨?_, rfl, rfl⟩
  simpa [CatStore.alloc] using pyDictSet_of_absent st.states tid st.heap.length h

theorem CatStore.ensure_inv (st : CatStore) (tid : String) (hinv : st.Inv) :
    (st._ensure tid).1.Inv := by
  cases hget : pyDictGet st.states tid with
  | some a =>
    unfold CatStore._ensure
    rw [hget]
    exact hinv
  | none =>
    obtain ⟨hs, hh, _⟩ := CatStore.ensure_states_absent st tid hget
    refine ⟨?_, ?_, ?_⟩
    · rw [hs]
      simp only [List.map_append, List.map_cons, List.map_nil]
      rw [List.nodup_append]
      refine ⟨hinv.keys_nodup, List.nodup_singleton _, ?_⟩
      intro x hx hx'
      simp only [List.mem_singleton] at hx'
      rw [hx'] at hx
      exact ((pyDictGet_none_iff st.states tid).1 hget) hx
    · rw [hs]
      simp only [List.map_append, List.map_cons, List.map_nil]
      rw [List.nodup_append]
      refine ⟨hinv.addrs_nodup, List.nodup_singleton _, ?_⟩
      intro x hx hx'
      simp only [List.mem_singleton] at hx'
      subst hx'
      obtain ⟨p, hp, hpx⟩ := List.mem_map.1 hx
      have := hinv.addrs_lt p hp
      omega
    · intro p hp
      rw [hs] at hp
      rw [hh]
      simp only [List.length_append, List.length_singleton]
      rcases List.mem_append.1 hp with hp' | hp'
      · have := hinv.addrs_lt p hp'
        omega
      · simp only [List.mem_singleton] at hp'
        subst hp'
        omega

theorem CatStore.ensure_get (st : CatStore) (tid : String) :
    pyDictGet (st._ensure tid).1.states tid = some (st._ensure tid).2 := by
  cases hget : pyDictGet st.states tid with
  | some a =>
    unfold CatStore._ensure
    rw [hget]
    exact hget
  | none =>
    obtain ⟨hs, _, ha⟩ := CatStore.ensure_states_absent st tid hget
    rw [hs, ha, pyDictGet_append, hget]
    simp [pyDictGet]

theorem CatStore.ensure_read (st : CatStore) (tid : String) (hinv : st.Inv) :
    (st._ensure tid).1.read (st._ensure tid).2 =
      (st.valueOf tid).getD ({} : CatState) := by
  cases hget : pyDictGet st.states tid with
  | some a =>
    unfold CatStore._ensure CatStore.valueOf
    rw [hget]
    rfl
  | none =>
    obtain ⟨_, hh, ha⟩ := CatStore.ensure_states_absent st tid hget
    unfold CatStore.valueOf
    rw [hget]
    show (st._ensure tid).1.read (st._ensure tid).2 = ({} : CatState)
    unfold CatStore.read
    rw [hh, ha]
    exact getD_append_self st.heap _ _

theorem CatStore.ensure_valueOf_ne (st : CatStore) (tid tid' : String)
    (hinv : st.Inv) (hne : tid' ≠ tid) :
    (st._ensure tid).1.valueOf tid' = st.valueOf tid' := by
  cases hget : pyDictGet st.states tid with
  | some a =>
    unfold CatStore._ensure
    rw [hget]
  | none =>
    obtain ⟨hs, hh, _⟩ := CatStore.ensure_states_absent st tid hget
    have hread : ∀ x, x < st.heap.length → (st._ensure tid).1.read x = st.read x := by
      intro x hx
      show (st._ensure tid).1.heap.getD x ({} : CatState) =
        st.heap.getD x ({} : CatState)
      rw [hh]
      exact getD_append_lt _ _ _ _ hx
    unfold CatStore.valueOf
    rw [hs, pyDictGet_append]
    cases hget' : pyDictGet st.states tid' with
    | none =>
      have hne' : ¬tid = tid' := fun e => hne e.symm
      have hsingle : pyDictGet [(tid, st.heap.length)] tid' = none := by
        simp [pyDictGet, hne']
      simp [hsingle]
    | some a' =>
      have ha' : a' < st.heap.length := hinv.addrs_lt _ (pyDictGet_mem hget')
      show some ((st._ensure tid).1.read a') = some (st.read a')
      rw [hread a' ha']

theorem CatStore.ensure_heap_le (st : CatStore) (tid : String) :
    st.heap.length ≤ (st._ensure tid).1.heap.length := by
  cases hget : pyDictGet st.states tid with
  | some a =>
    unfold CatStore._ensure
    rw [hget]
  | none =>
    obtain ⟨_, hh, _⟩ := CatStore.ensure_states_absent st tid hget
    rw [hh]
    simp

/-! ### Characterisation of `load` and `mutate` -/

theorem CatStore.load_inv (st : CatStore) (tid : String) (hinv : st.Inv) :
    (st.load tid).1.Inv :=
  CatStore.alloc_inv _ _ (CatStore.ensure_inv st tid hinv)

theorem CatStore.loadView_eq (st : CatStore) (tid : String) (hinv : st.Inv) :
    st.loadView tid = (st.valueOf tid).getD ({} : CatState) := by
  unfold CatStore.loadView CatStore.load
  rw [CatStore.alloc_read_self]
  rw [CatState.clone]
  exact CatStore.ensure_read st tid hinv

theorem CatStore.load_valueOf_self (st : CatStore) (tid : String)
    (hinv : st.Inv) :
    (st.load tid).1.valueOf tid = some ((st.valueOf tid).getD ({} : CatState)) := by
  unfold CatStore.load
  rw [CatStore.alloc_valueOf _ _ (CatStore.ensure_inv st tid hinv)]
  unfold CatStore.valueOf
  rw [CatStore.ensure_get st tid]
  show some ((st._ensure tid).1.read (st._ensure tid).2) = _
  rw [CatStore.ensure_read st tid hinv]
  rfl

theorem CatStore.load_valueOf_ne (st : CatStore) (tid tid' : String)
    (hinv : st.Inv) (hne : tid' ≠ tid) :
    (st.load tid).1.valueOf tid' = st.valueOf tid' := by
  unfold CatStore.load
  rw [CatStore.alloc_valueOf _ _ (CatStore.ensure_inv st tid hinv)]
  exact CatStore.ensure_valueOf_ne st tid tid' hinv hne

theorem CatStore.load_addr_fresh (st : CatStore) (tid : String) (hinv : st.Inv) :
    ∀ p ∈ (st.load tid).1.states, p.2 ≠ (st.load tid).2 := by
  intro p hp
  have hstates : (st.load tid).1.states = (st._ensure tid).1.states := rfl
  have haddr : (st.load tid).2 = (st._ensure tid).1.heap.length := rfl
  rw [hstates] at hp
  rw [haddr]
  have := (CatStore.ensure_inv st tid hinv).addrs_lt p hp
  omega

theorem CatStore.write_after_load_valueOf (st : CatStore) (tid tid' : String)
    (v : CatState) (hinv : st.Inv) :
    ((st.load tid).1.write (st.load tid).2 v).valueOf tid' =
      (st.load tid).1.valueOf tid' := by
  have hs : ((st.load tid).1.write (st.load tid).2 v).states =
      (st.load tid).1.states := rfl
  unfold CatStore.valueOf
  rw [hs]
  cases hget : pyDictGet (st.load tid).1.states tid' with
  | none => rfl
  | some a' =>
    have hfresh := CatStore.load_addr_fresh st tid hinv _ (pyDictGet_mem hget)
    show some (((st.load tid).1.write (st.load tid).2 v).read a') =
      some ((st.load tid).1.read a')
    rw [CatStore.write_read_ne _ _ _ _ (fun e => hfresh e.symm)]

theorem CatStore.write_after_load_inv (st : CatStore) (tid : String)
    (v : CatState) (hinv : st.Inv) :
    ((st.load tid).1.write (st.load tid).2 v).Inv :=
  CatStore.write_inv _ _ _ (CatStore.load_inv st tid hinv)

theorem CatStore.mutate_inv (st : CatStore) (tid : String)
    (f : CatState → CatState) (hinv : st.Inv) : (st.mutate tid f).1.Inv := by
  unfold CatStore.mutate
  exact CatStore.alloc_inv _ _
    (CatStore.write_inv _ _ _ (CatStore.ensure_inv st tid hinv))

theorem CatStore.mutate_valueOf_self (st : CatStore) (tid : String)
    (f : CatState → CatState) (hinv : st.Inv) :
    (st.mutate tid f).1.valueOf tid =
      some (f ((st.valueOf tid).getD ({} : CatState))) := by
  have hinv1 := CatStore.ensure_inv st tid hinv
  have hinv2 := CatStore.write_inv (st._ensure tid).1 (st._ensure tid).2
    (f ((st._ensure tid).1.read (st._ensure tid).2)) hinv1
  unfold CatStore.mutate
  rw [CatStore.alloc_valueOf _ _ hinv2]
  rw [CatStore.write_valueOf_self _ tid _ _ hinv1 (CatStore.ensure_get st tid)]
  rw [CatStore.ensure_read st tid hinv]

theorem CatStore.mutate_valueOf_ne (st : CatStore) (tid tid' : String)
    (f : CatState → CatState) (hinv : st.Inv) (hne : tid' ≠ tid) :
    (st.mutate tid f).1.valueOf tid' = st.valueOf tid' := by
  have hinv1 := CatStore.ensure_inv st tid hinv
  have hinv2 := CatStore.write_inv (st._ensure tid).1 (st._ensure tid).2
    (f ((st._ensure tid).1.read (st._ensure tid).2)) hinv1
  unfold CatStore.mutate
  rw [CatStore.alloc_valueOf _ _ hinv2]
  rw [CatStore.write_valueOf_other _ tid tid' _ _ hinv1
    (CatStore.ensure_get st tid) hne]
  exact CatStore.ensure_valueOf_ne st tid tid' hinv hne

end CatLounge

namespace CatLounge

/-! ### Stat clamping (C2) -/

theorem _clamp_mem (v : Int) : STATUS_MIN ≤ _clamp v ∧ _clamp v ≤ STATUS_MAX := by
  unfold _clamp STATUS_MIN STATUS_MAX
  omega

theorem applyCatOp_statsInRange (s : CatState) (op : CatOp)
    (h : s.statsInRange) : (applyCatOp s op).statsInRange := by
  obtain ⟨⟨he1, he2⟩, ⟨hh1, hh2⟩, ⟨hc1, hc2⟩⟩ := h
  simp only [STATUS_MIN, STATUS_MAX] at *
  cases op with
  | feed amount dirty now =>
    cases dirty <;>
      simp [applyCatOp, CatState.feed, CatState.touch, _clamp,
        CatState.statsInRange, STATUS_MIN, STATUS_MAX] <;>
      omega
  | play boost dirty now =>
    cases dirty <;>
      simp [applyCatOp, CatState.play, CatState.touch, _clamp,
        CatState.statsInRange, STATUS_MIN, STATUS_MAX] <;>
      omega
  | clean boost gloomy now =>
    cases gloomy <;>
      simp [applyCatOp, CatState.clean, CatState.touch, _clamp,
        CatState.statsInRange, STATUS_MIN, STATUS_MAX] <;>
      omega

theorem applyCatOps_statsInRange (s : CatState) (ops : List CatOp)
    (h : s.statsInRange) : (applyCatOps s ops).statsInRange := by
  induction ops generalizing s with
  | nil => exact h
  | cons op rest ih => exact ih _ (applyCatOp_statsInRange s op h)

/-- **C2.** For every `CatState` whose stats lie in `[0, 10]` and every
finite sequence of `feed`/`play`/`clean` operations, under every outcome of
the random choices (and even for arbitrary `amount`/`boost` arguments), the
`energy`, `happiness` and `cleanliness` fields stay within `[0, 10]` after
every operation; in particular `feed`'s increase of 3 applied to an `energy`
already at 10 yields 10, not 13. -/
theorem stat_bounds_invariant :
    (∀ (s : CatState) (ops : List CatOp), s.statsInRange →
      (applyCatOps s ops).statsInRange) ∧
    (∀ (s : CatState) (dirty : Bool) (now : Nat), s.energy = 10 →
      (s.feed dirty now).energy = 10) := by
  constructor
  · exact fun s ops h => applyCatOps_statsInRange s ops h
  · intro s dirty now h
    cases dirty <;>
      simp [CatState.feed, CatState.touch, _clamp, STATUS_MIN, STATUS_MAX, h]

theorem stat_bounds_invariant_witness :
    (({} : CatState).statsInRange ∧
      (applyCatOps {} [CatOp.feed 3 true 1, CatOp.clean 3 false 2]).statsInRange) ∧
    (({ ({} : CatState) with energy := 10 }).feed false 3).energy = 10 :=
  ⟨⟨by decide, stat_bounds_invariant.1 {} [CatOp.feed 3 true 1, CatOp.clean 3 false 2] (by decide)⟩,
    stat_bounds_invariant.2 { ({} : CatState) with energy := 10 } false 3 (by decide)⟩

/-! ### Feed-then-snapshot scenario (C7) -/

theorem applyCatOp_color_pattern (s : CatState) (op : CatOp) :
    (applyCatOp s op).color_pattern = s.color_pattern := by
  cases op with
  | feed amount dirty now =>
    cases dirty <;> simp [applyCatOp, CatState.feed, CatState.touch]
  | play boost dirty now =>
    cases dirty <;> simp [applyCatOp, CatState.play, CatState.touch]
  | clean boost gloomy now =>
    cases gloomy <;> simp [applyCatOp, CatState.clean, CatState.touch]

theorem applyCatOps_color_pattern (s : CatState) (ops : List CatOp) :
    (applyCatOps s ops).color_pattern = s.color_pattern := by
  induction ops generalizing s with
  | nil => rfl
  | cons op rest ih =>
    calc (applyCatOps (applyCatOp s op) rest).color_pattern
        = (applyCatOp s op).color_pattern := ih _
      _ = s.color_pattern := applyCatOp_color_pattern s op

/-- **C7.** A fresh default cat (`energy=6, happiness=6, cleanliness=6`)
fed once has `energy = 9` and `happiness = 7`, with `cleanliness` 5 or 6
according to the drawn random outcome; and the `to_payload` snapshot carries
`colorPattern = null` for the fresh entity and for every entity reached from
it by feed/play/clean operations alone (never renamed). -/
theorem feed_scenario :
    (∀ now : Nat,
      (({} : CatState).feed true now).energy = 9 ∧
      (({} : CatState).feed true now).happiness = 7 ∧
      (({} : CatState).feed true now).cleanliness = 5 ∧
      (({} : CatState).feed false now).energy = 9 ∧
      (({} : CatState).feed false now).happiness = 7 ∧
      (({} : CatState).feed false now).cleanliness = 6) ∧
    (∀ ops : List CatOp,
      ((applyCatOps {} ops).to_payload none).colorPattern = none) := by
  constructor
  · intro now
    refine ⟨rfl, rfl, rfl, rfl, rfl, rfl⟩
  · intro ops
    show (applyCatOps {} ops).color_pattern = none
    rw [applyCatOps_color_pattern]

/-! ### Age clamp (C8) -/

/-- **C8.** `set_age` with a truthy integer clamps it to `[1, 15]` and writes
it to `age`; a `None`, zero, or non-integer argument leaves the whole state
unchanged. -/
theorem set_age_clamps :
    (∀ (s : CatState) (v : Int) (now : Nat), v ≠ 0 →
      (s.set_age (.intV v) now).age = min (max v 1) 15) ∧
    (∀ (s : CatState) (now : Nat), s.set_age .noneV now = s) ∧
    (∀ (s : CatState) (now : Nat), s.set_age (.intV 0) now = s) ∧
    (∀ (s : CatState) (now : Nat), s.set_age .nonIntV now = s) := by
  refine ⟨?_, ?_, ?_, ?_⟩
  · intro s v now hv
    simp [CatState.set_age, CatState.touch, hv]
  · intro s now
    rfl
  · intro s now
    simp [CatState.set_age]
  · intro s now
    rfl

theorem set_age_clamps_witness :
    (20 : Int) ≠ 0 ∧
    (({} : CatState).set_age (.intV 20) 5).age = min (max (20 : Int) 1) 15 :=
  ⟨by decide, set_age_clamps.1 {} 20 5 (by decide)⟩

/-! ### Rename guard (C3) -/

/-- **C3 fails as stated.**  The guard only compares the current name with
the sentinel, and the handler permits renaming *to* the sentinel itself:
starting from the default entity, a first select-name call with the name
`"Unnamed Cat"` runs the rename mutation (it draws and assigns the color
pattern, so it is a successful rename), after which a second rename call is
not a no-op — it changes the name to `"Felix"`. -/
theorem rename_guard_counterexample :
    handleSelectName {} "Unnamed Cat" (0 : Fin 5) 1 ≠ ({} : CatState) ∧
    (handleSelectName {} "Unnamed Cat" (0 : Fin 5) 1).color_pattern = some "black" ∧
    (handleSelectName (handleSelectName {} "Unnamed Cat" (0 : Fin 5) 1)
        "Felix" (1 : Fin 5) 2).name = "Felix" ∧
    (handleSelectName (handleSelectName {} "Unnamed Cat" (0 : Fin 5) 1)
        "Felix" (1 : Fin 5) 2).name ≠
      (handleSelectName {} "Unnamed Cat" (0 : Fin 5) 1).name := by
  decide

/-- **C3 (amended).** Rename is only permitted while the current name equals
the sentinel `"Unnamed Cat"`; after a first successful rename to a
(stripped, non-empty) name *different from the sentinel*, every later
select-name call is a no-op leaving name and color pattern unchanged, and
the color pattern is drawn and assigned exactly once, on that first rename. -/
theorem rename_guard (s : CatState) (raw : String) (pick : Fin 5) (now : Nat)
    (hname : s.name = "Unnamed Cat") (hcolor : s.color_pattern = none)
    (hraw : ¬(pyStrip raw).isEmpty = true) (hsent : (pyStrip raw) ≠ "Unnamed Cat") :
    (handleSelectName s raw pick now).name = (pyStrip raw) ∧
    (handleSelectName s raw pick now).color_pattern =
      some (COLOR_PATTERNS.getD pick.1 "") ∧
    ∀ (raw2 : String) (pick2 : Fin 5) (now2 : Nat),
      handleSelectName (handleSelectName s raw pick now) raw2 pick2 now2 =
        handleSelectName s raw pick now := by
  have h1 : handleSelectName s raw pick now = s.rename (pyStrip raw) pick now := by
    unfold handleSelectName
    simp [hraw, hname]
  have hrn : (s.rename (pyStrip raw) pick now).name = (pyStrip raw) := by
    simp [CatState.rename, CatState.touch, optStrTruthy, hcolor]
  have hrc : (s.rename (pyStrip raw) pick now).color_pattern =
      some (COLOR_PATTERNS.getD pick.1 "") := by
    simp [CatState.rename, CatState.touch, optStrTruthy, hcolor]
  refine ⟨by rw [h1]; exact hrn, by rw [h1]; exact hrc, ?_⟩
  intro raw2 pick2 now2
  rw [h1]
  unfold handleSelectName
  by_cases h2 : (pyStrip raw2).isEmpty
  · simp [h2]
  · simp only [h2, if_false, Bool.false_eq_true]
    rw [hrn]
    simp [hsent]

theorem rename_guard_witness :
    (handleSelectName {} "Felix" (0 : Fin 5) 1).name = (pyStrip "Felix") ∧
    (handleSelectName {} "Felix" (0 : Fin 5) 1).color_pattern =
      some (COLOR_PATTERNS.getD (0 : Fin 5).1 "") ∧
    ∀ (raw2 : String) (pick2 : Fin 5) (now2 : Nat),
      handleSelectName (handleSelectName {} "Felix" (0 : Fin 5) 1) raw2 pick2 now2 =
        handleSelectName {} "Felix" (0 : Fin 5) 1 :=
  rename_guard {} "Felix" (0 : Fin 5) 1 rfl rfl (by decide) (by decide)

end CatLounge

namespace CatLounge

/-! ### Serialized mutation (C1), copy isolation (C4), auto-creation (C9) -/

/-- The empty store satisfies the invariant. -/
theorem CatStore.empty_store_inv : ({} : CatStore).Inv :=
  ⟨List.Pairwise.nil, List.Pairwise.nil, by intro p hp; simp at hp⟩

/-- **C1.** The lock serializes every `mutate` body, so a concurrent batch of
calls executes as some sequential order.  For every such order consisting of
N energy-increment mutates of one key, arbitrarily interleaved with mutates
of other keys by other callers, the key's final energy is its initial energy
plus N: no update is lost. -/
theorem serialized_mutation (st : CatStore) (tid : String)
    (ops : List (String × (CatState → CatState))) (hinv : st.Inv)
    (hops : ∀ p ∈ ops, p.1 = tid → p.2 = incEnergy) :
    (((st.runMutates ops).valueOf tid).getD ({} : CatState)).energy =
      ((st.valueOf tid).getD ({} : CatState)).energy +
        (ops.filter (fun p => p.1 == tid)).length := by
  induction ops generalizing st with
  | nil => simp [CatStore.runMutates]
  | cons op rest ih =>
    obtain ⟨k, f⟩ := op
    have hrun : st.runMutates ((k, f) :: rest) = (st.mutate k f).1.runMutates rest := rfl
    rw [hrun]
    have hinv1 : (st.mutate k f).1.Inv := CatStore.mutate_inv st k f hinv
    have hrest : ∀ p ∈ rest, p.1 = tid → p.2 = incEnergy :=
      fun p hp => hops p (List.mem_cons_of_mem _ hp)
    by_cases hk : k = tid
    · subst hk
      have hf : f = incEnergy := hops (k, f) (List.mem_cons_self _ _) rfl
      subst hf
      rw [ih _ hinv1 hrest]
      rw [CatStore.mutate_valueOf_self st k incEnergy hinv]
      simp only [Option.getD_some, incEnergy, List.filter_cons, beq_self_eq_true,
        if_true, List.length_cons]
      push_cast
      ring
    · have hne : tid ≠ k := fun e => hk e.symm
      rw [ih _ hinv1 hrest]
      rw [CatStore.mutate_valueOf_ne st k tid f hinv hne]
      have hfilter : ((k, f) :: rest).filter (fun p => p.1 == tid) =
          rest.filter (fun p => p.1 == tid) := by
        simp [List.filter_cons, hk]
      rw [hfilter]

theorem serialized_mutation_witness :
    ((( {} : CatStore).runMutates
        [("t", incEnergy), ("u", incEnergy), ("t", incEnergy), ("t", incEnergy)]).valueOf "t"
        |>.getD ({} : CatState)).energy =
      ((({} : CatStore).valueOf "t").getD ({} : CatState)).energy +
        ([("t", incEnergy), ("u", incEnergy), ("t", incEnergy), ("t", incEnergy)].filter
          (fun p => p.1 == "t")).length :=
  serialized_mutation {} "t"
    [("t", incEnergy), ("u", incEnergy), ("t", incEnergy), ("t", incEnergy)]
    CatStore.empty_store_inv
    (by
      intro p hp hk
      simp only [List.mem_cons, List.not_mem_nil, or_false] at hp
      rcases hp with rfl | rfl | rfl | rfl
      · rfl
      · exact absurd hk (by decide)
      · rfl
      · rfl)

/-- **C4 (amended).** `CatStore`'s accessors hand out owned copies: two
`load`s of a key with no intervening `mutate` return snapshots with equal
field values, and a caller's in-place mutation of the snapshot object a
`load` returned never changes any key's stored entity nor what later `load`s
return.  (The original claim extended this to every store; `FactStore`'s
accessors return live references instead — see the counterexample.) -/
theorem copy_isolation (st : CatStore) (tid tid' : String) (v : CatState)
    (hinv : st.Inv) :
    (st.loadStore tid).loadView tid = st.loadView tid ∧
    ((st.load tid).1.write (st.load tid).2 v).valueOf tid' =
      (st.load tid).1.valueOf tid' ∧
    ((st.load tid).1.write (st.load tid).2 v).loadView tid = st.loadView tid := by
  refine ⟨?_, CatStore.write_after_load_valueOf st tid tid' v hinv, ?_⟩
  · unfold CatStore.loadStore
    rw [CatStore.loadView_eq _ _ (CatStore.load_inv st tid hinv),
      CatStore.loadView_eq _ _ hinv]
    rw [CatStore.load_valueOf_self st tid hinv]
    rfl
  · rw [CatStore.loadView_eq _ _ (CatStore.write_after_load_inv st tid v hinv),
      CatStore.loadView_eq _ _ hinv]
    rw [CatStore.write_after_load_valueOf st tid tid v hinv]
    rw [CatStore.load_valueOf_self st tid hinv]
    rfl

theorem copy_isolation_witness :
    (({} : CatStore).loadStore "t").loadView "t" = ({} : CatStore).loadView "t" ∧
    ((({} : CatStore).load "t").1.write (({} : CatStore).load "t").2
        { ({} : CatState) with name := "X" }).valueOf "u" =
      (({} : CatStore).load "t").1.valueOf "u" ∧
    ((({} : CatStore).load "t").1.write (({} : CatStore).load "t").2
        { ({} : CatState) with name := "X" }).loadView "t" =
      ({} : CatStore).loadView "t" :=
  copy_isolation {} "t" "u" { ({} : CatState) with name := "X" } CatStore.empty_store_inv

/-- **C9.** `load` of an absent key never fails: it creates and returns the
default entity (name "Unnamed Cat", energy 6, happiness 6, cleanliness 6,
age 2, no color pattern), and every subsequent `load` of the same key with no
intervening `mutate` returns the same field values — nothing is re-drawn on
repeated reads. -/
theorem auto_creation (st : CatStore) (tid : String) (hinv : st.Inv)
    (habsent : pyDictGet st.states tid = none) :
    st.loadView tid = ({} : CatState) ∧
    (st.loadView tid).name = "Unnamed Cat" ∧
    (st.loadView tid).energy = 6 ∧
    (st.loadView tid).happiness = 6 ∧
    (st.loadView tid).cleanliness = 6 ∧
    (st.loadView tid).age = 2 ∧
    (st.loadView tid).color_pattern = none ∧
    ∀ n : Nat,
      ((fun s : CatStore => s.loadStore tid)^[n] (st.loadStore tid)).loadView tid =
        st.loadView tid := by
  have hval : st.valueOf tid = none := by
    unfold CatStore.valueOf
    rw [habsent]
    rfl
  have hview : st.loadView tid = ({} : CatState) := by
    rw [CatStore.loadView_eq st tid hinv, hval]
    rfl
  have base_inv : (st.loadStore tid).Inv := CatStore.load_inv st tid hinv
  have base_val : (st.loadStore tid).valueOf tid = some ({} : CatState) := by
    unfold CatStore.loadStore
    rw [CatStore.load_valueOf_self st tid hinv, hval]
    rfl
  have main : ∀ n : Nat,
      ((fun s : CatStore => s.loadStore tid)^[n] (st.loadStore tid)).Inv ∧
      ((fun s : CatStore => s.loadStore tid)^[n] (st.loadStore tid)).valueOf tid =
        some ({} : CatState) := by
    intro n
    induction n with
    | zero => exact ⟨base_inv, base_val⟩
    | succ n ihn =>
      rw [Function.iterate_succ_apply']
      refine ⟨CatStore.load_inv _ tid ihn.1, ?_⟩
      show ((_ : CatStore).load tid).1.valueOf tid = _
      rw [CatStore.load_valueOf_self _ tid ihn.1, ihn.2]
      rfl
  refine ⟨hview, by rw [hview], by rw [hview], by rw [hview],
    by rw [hview], by rw [hview], by rw [hview], ?_⟩
  intro n
  obtain ⟨hiInv, hiVal⟩ := main n
  rw [CatStore.loadView_eq _ tid hiInv, hiVal, hview]
  rfl

theorem auto_creation_witness :
    ({} : CatStore).loadView "new-key" = ({} : CatState) ∧
    (({} : CatStore).loadView "new-key").name = "Unnamed Cat" ∧
    (({} : CatStore).loadView "new-key").energy = 6 ∧
    (({} : CatStore).loadView "new-key").happiness = 6 ∧
    (({} : CatStore).loadView "new-key").cleanliness = 6 ∧
    (({} : CatStore).loadView "new-key").age = 2 ∧
    (({} : CatStore).loadView "new-key").color_pattern = none ∧
    ∀ n : Nat,
      ((fun s : CatStore => s.loadStore "new-key")^[n]
          (({} : CatStore).loadStore "new-key")).loadView "new-key" =
        ({} : CatStore).loadView "new-key" :=
  auto_creation {} "new-key" CatStore.empty_store_inv rfl

end CatLounge

namespace Facts

/-- **C4 fails as stated** on `FactStore`: `create` returns the stored
object itself, not a copy.  Before any caller mutation, `get "fact_1"` sees
text `"hello"`; after the caller assigns `text = "mutated"` on the object
`create` returned, the same `get` sees `"mutated"` — mutating a value
returned by a store accessor does affect subsequent reads. -/
theorem live_reference_counterexample :
    (((( {} : FactStore).create "hello" "fact_1" 0).1.get "fact_1").map
        ((( {} : FactStore).create "hello" "fact_1" 0).1.read)).map Fact.text =
      some "hello" ∧
    ((((( {} : FactStore).create "hello" "fact_1" 0).1.write
            ((( {} : FactStore).create "hello" "fact_1" 0).2)
            { ((( {} : FactStore).create "hello" "fact_1" 0).1.read
                ((( {} : FactStore).create "hello" "fact_1" 0).2)) with
              text := "mutated" }).get "fact_1").map
        (((( {} : FactStore).create "hello" "fact_1" 0).1.write
            ((( {} : FactStore).create "hello" "fact_1" 0).2)
            { ((( {} : FactStore).create "hello" "fact_1" 0).1.read
                ((( {} : FactStore).create "hello" "fact_1" 0).2)) with
              text := "mutated" }).read)).map Fact.text = some "mutated" := by
  decide

end Facts

/-! ### Unknown action types are ignored (C5) -/

/-- **C5.** Dispatching an inbound action whose type string is not registered
with any handler — `"nonexistent.action"` in particular — produces zero
outbound events and surfaces no error, on the customer-support handler table
and on the cat-lounge dispatcher alike, whatever the handlers, payload and
sender are. -/
theorem unknown_action_ignored {α ε : Type}
    (meal flight confirm modify accept decline rebook selectName :
      α → Except String (List ε))
    (payload : α) (ty : String)
    (hty : ty ∉ (CustomerSupport.customerSupportHandlers meal flight confirm
        modify accept decline rebook).map Prod.fst)
    (hty2 : ty ≠ "cats.select_name") :
    CustomerSupport.CustomerSupportServer.action
        (CustomerSupport.customerSupportHandlers meal flight confirm modify
          accept decline rebook) ty payload = .ok [] ∧
    CatLounge.CatAssistantServer.action selectName ty payload = .ok [] := by
  constructor
  · have hnone := (pyDictGet_none_iff (CustomerSupport.customerSupportHandlers
      meal flight confirm modify accept decline rebook) ty).2 hty
    unfold CustomerSupport.CustomerSupportServer.action
    rw [hnone]
  · unfold CatLounge.CatAssistantServer.action
    simp [hty2]

theorem unknown_action_ignored_witness :
    CustomerSupport.CustomerSupportServer.action
        (CustomerSupport.customerSupportHandlers
          (fun _ : Unit => (.ok [] : Except String (List Unit)))
          (fun _ => .ok []) (fun _ => .ok []) (fun _ => .ok [])
          (fun _ => .ok []) (fun _ => .ok []) (fun _ => .ok []))
        "nonexistent.action" () = .ok [] ∧
    CatLounge.CatAssistantServer.action
        (fun _ : Unit => (.ok [] : Except String (List Unit)))
        "nonexistent.action" () = .ok [] :=
  unknown_action_ignored
    (fun _ => .ok []) (fun _ => .ok []) (fun _ => .ok []) (fun _ => .ok [])
    (fun _ => .ok []) (fun _ => .ok []) (fun _ => .ok []) (fun _ => .ok [])
    () "nonexistent.action" (by decide) (by decide)

namespace CustomerSupport

/-! ### Seat change validation (C6) -/

theorem find_setSeatFirst (segs : List FlightSegment) (fn new_seat : String)
    (seg : FlightSegment)
    (h : segs.find? (fun s => pyUpper s.flight_number == fn) = some seg) :
    (_setSeatFirst segs fn new_seat).find?
        (fun s => pyUpper s.flight_number == fn) =
      some (seg.change_seat new_seat) := by
  induction segs with
  | nil => simp [List.find?] at h
  | cons s0 rest ih =>
    by_cases h0 : (pyUpper s0.flight_number == fn) = true
    · simp only [List.find?, h0] at h
      injection h with h
      subst h
      have h1 : (pyUpper (s0.change_seat new_seat).flight_number == fn) = true := by
        simpa [FlightSegment.change_seat] using h0
      unfold _setSeatFirst
      rw [if_pos h0]
      simp only [List.find?, h1]
    · have h0' : (pyUpper s0.flight_number == fn) = false := by
        simpa using h0
      simp only [List.find?, h0'] at h
      unfold _setSeatFirst
      rw [if_neg h0]
      simp only [List.find?, h0']
      exact ih h

theorem change_seat_present (m : AirlineStateManager) (tid fn seat now : String)
    (p : CustomerProfile) (seg : FlightSegment)
    (hp : pyDictGet m tid = some p)
    (hv : _is_valid_seat seat = true)
    (hseg : _find_segment p fn = some seg) :
    change_seat m tid fn seat now =
      (pyDictSet m tid
        (({ p with segments :=
              _setSeatFirst p.segments (pyStrip (pyUpper fn)) (pyUpper seat) }).log
          ("Seat changed on " ++ seg.flight_number ++ " from " ++ seg.seat ++
            " to " ++ pyUpper seat ++ ".") "success" now),
        .ok ("Seat updated to " ++ pyUpper seat ++ " on flight " ++
          seg.flight_number ++ ".")) := by
  unfold change_seat get_profile
  rw [hp]
  simp [hv, hseg]

theorem change_seat_invalid (m : AirlineStateManager) (tid fn seat now : String)
    (p : CustomerProfile)
    (hp : pyDictGet m tid = some p)
    (hv : _is_valid_seat seat = false) :
    change_seat m tid fn seat now =
      (m, .error "Seat must be a row number followed by a letter, for example 12C.") := by
  unfold change_seat get_profile
  rw [hp]
  simp [hv]

theorem is_valid_seat_iff_spec (s : String) :
    _is_valid_seat s = seatSpecValid s := by
  unfold _is_valid_seat seatSpecValid
  by_cases hlen : (pyUpper (pyStrip s)).length < 2
  · have h2 : ¬(2 ≤ (pyUpper (pyStrip s)).length) := by omega
    simp [hlen, h2]
  · have h2 : 2 ≤ (pyUpper (pyStrip s)).length := by omega
    simp only [hlen, if_false]
    cases hlast : (pyUpper (pyStrip s)).toList.getLast? with
    | none => simp [hlast, h2]
    | some c => simp [hlast, h2, Bool.and_comm]

/-- **C6.** On a thread whose stored profile has a flight OA476 segment:
`change_seat(thread, "OA476", "12c")` succeeds and stores the seat
normalised to `"12C"`; `change_seat(thread, "OA476", "bad")` raises a
validation error and leaves the manager — and hence the stored seat —
unchanged; and a seat string is accepted exactly when, after stripping and
uppercasing, it has at least 2 characters, a trailing alphabetic letter and
an all-digit leading row. -/
theorem seat_change_validation (m : AirlineStateManager) (tid now : String)
    (p : CustomerProfile) (seg : FlightSegment)
    (hp : pyDictGet m tid = some p)
    (hseg : _find_segment p "OA476" = some seg) :
    ((change_seat m tid "OA476" "12c" now).2 =
        .ok ("Seat updated to 12C on flight " ++ seg.flight_number ++ ".") ∧
      seatOf (change_seat m tid "OA476" "12c" now).1 tid "OA476" = some "12C") ∧
    (change_seat m tid "OA476" "bad" now =
        (m, .error "Seat must be a row number followed by a letter, for example 12C.") ∧
      seatOf (change_seat m tid "OA476" "bad" now).1 tid "OA476" = some seg.seat) ∧
    (∀ s : String, _is_valid_seat s = seatSpecValid s) := by
  have hok := change_seat_present m tid "OA476" "12c" now p seg hp (by decide) hseg
  have hbad := change_seat_invalid m tid "OA476" "bad" now p hp (by decide)
  have hstr : ("Seat updated to " ++ pyUpper "12c" : String) ++ " on flight " =
      "Seat updated to 12C on flight " := by decide
  refine ⟨⟨?_, ?_⟩, ⟨hbad, ?_⟩, is_valid_seat_iff_spec⟩
  · rw [hok]
    show Except.ok ("Seat updated to " ++ pyUpper "12c" ++ " on flight " ++
        seg.flight_number ++ ".") =
      Except.ok ("Seat updated to 12C on flight " ++ seg.flight_number ++ ".")
    rw [hstr]
  · rw [hok]
    unfold seatOf
    rw [pyDictGet_set_self]
    show (_find_segment _ "OA476").map FlightSegment.seat = some "12C"
    unfold _find_segment at hseg ⊢
    show ((_setSeatFirst p.segments (pyStrip (pyUpper "OA476")) (pyUpper "12c")).find?
      (fun s => pyUpper s.flight_number == pyStrip (pyUpper "OA476"))).map FlightSegment.seat = some "12C"
    rw [find_setSeatFirst p.segments _ _ seg hseg]
    rfl
  · rw [hbad]
    unfold seatOf
    rw [hp]
    show (_find_segment p "OA476").map FlightSegment.seat = some seg.seat
    rw [hseg]
    rfl

theorem seat_change_validation_witness :
    ((change_seat [("t1", _create_default_state "T0")] "t1" "OA476" "12c" "T1").2 =
        .ok ("Seat updated to 12C on flight " ++
          ({ flight_number := "OA476", date := "2025-10-02", origin := "SFO",
             destination := "JFK", departure_time := "08:05",
             arrival_time := "16:35", seat := "14A" } : FlightSegment).flight_number ++ ".") ∧
      seatOf (change_seat [("t1", _create_default_state "T0")] "t1" "OA476" "12c" "T1").1
          "t1" "OA476" = some "12C") ∧
    (change_seat [("t1", _create_default_state "T0")] "t1" "OA476" "bad" "T1" =
        ([("t1", _create_default_state "T0")],
          .error "Seat must be a row number followed by a letter, for example 12C.") ∧
      seatOf (change_seat [("t1", _create_default_state "T0")] "t1" "OA476" "bad" "T1").1
          "t1" "OA476" =
        some ({ flight_number := "OA476", date := "2025-10-02", origin := "SFO",
                destination := "JFK", departure_time := "08:05",
                arrival_time := "16:35", seat := "14A" } : FlightSegment).seat) ∧
    (∀ s : String, _is_valid_seat s = seatSpecValid s) :=
  seat_change_validation [("t1", _create_default_state "T0")] "t1" "T1"
    (_create_default_state "T0")
    { flight_number := "OA476", date := "2025-10-02", origin := "SFO",
      destination := "JFK", departure_time := "08:05", arrival_time := "16:35",
      seat := "14A" }
    (by decide) (by decide)

end CustomerSupport

namespace Marketing

/-! ### Upsert semantics and id uniqueness of `AdAssetStore.create` (C10) -/

theorem AdAssetStore.empty_asset_store_inv : ({} : AdAssetStore).Inv :=
  ⟨List.Pairwise.nil, by intro aid; simp [pyDictGet]⟩

theorem assetIdHit_some {s : AdAssetStore} {asset_id : Option String}
    {aid : String} {asset0 : AdAsset}
    (h : assetIdHit s asset_id = some (aid, asset0)) :
    pyDictGet s.assets aid = some asset0 := by
  unfold assetIdHit at h
  cases asset_id with
  | none => simp at h
  | some a =>
    by_cases he : a.isEmpty
    · simp [he] at h
    · simp only [he, if_false, Bool.false_eq_true] at h
      cases hget : pyDictGet s.assets a with
      | none => rw [hget] at h; simp at h
      | some y =>
        rw [hget] at h
        simp only [Option.map_some', Option.some.injEq, Prod.mk.injEq] at h
        obtain ⟨rfl, rfl⟩ := h
        exact hget

/-- **C10.** `create` keeps every asset id unique in the insertion-order
list: from a well-formed store it yields a well-formed store; with a truthy
`asset_id` already present it updates that asset's fields in place, keeping
its images when the `images` argument is `None`, and leaves the order list —
and hence the asset's `list_saved` position — untouched; with a fresh
effective id it appends exactly that one id at the end of the order list. -/
theorem create_upsert (s : AdAssetStore)
    (product style tone pitch headline primary_text call_to_action : String)
    (image_prompts : List String) (images : Option (List String))
    (asset_id : Option String) (genId : String) (now : Nat)
    (hinv : s.Inv) :
    (s.create product style tone pitch headline primary_text call_to_action
        image_prompts images asset_id genId now).1.Inv ∧
    (∀ aid asset0, assetIdHit s asset_id = some (aid, asset0) →
      (s.create product style tone pitch headline primary_text call_to_action
          image_prompts images asset_id genId now).1.order = s.order ∧
      pyDictGet (s.create product style tone pitch headline primary_text
          call_to_action image_prompts images asset_id genId now).1.assets aid =
        some (s.create product style tone pitch headline primary_text
          call_to_action image_prompts images asset_id genId now).2 ∧
      (images = none →
        (s.create product style tone pitch headline primary_text call_to_action
            image_prompts images asset_id genId now).2.images = asset0.images) ∧
      (s.create product style tone pitch headline primary_text call_to_action
          image_prompts images asset_id genId now).2.product = product) ∧
    (assetIdHit s asset_id = none →
      (s.create product style tone pitch headline primary_text call_to_action
          image_prompts images asset_id genId now).2.id ∉ s.order →
      (s.create product style tone pitch headline primary_text call_to_action
          image_prompts images asset_id genId now).1.order =
        s.order ++ [(s.create product style tone pitch headline primary_text
          call_to_action image_prompts images asset_id genId now).2.id]) := by
  cases hhit : assetIdHit s asset_id with
  | some pair =>
    obtain ⟨aid, asset0⟩ := pair
    have haid : pyDictGet s.assets aid = some asset0 := assetIdHit_some hhit
    have hmem : aid ∈ s.order := (hinv.mem_iff aid).1 (by rw [haid]; rfl)
    simp only [AdAssetStore.create, hhit]
    refine ⟨⟨hinv.order_nodup, ?_⟩, ?_, ?_⟩
    · intro x
      by_cases hx : x = aid
      · subst hx
        rw [pyDictGet_set_self]
        simp [hmem]
      · rw [pyDictGet_set_ne _ _ _ _ hx]
        exact hinv.mem_iff x
    · intro aid' asset0' h'
      simp only [Option.some.injEq, Prod.mk.injEq] at h'
      obtain ⟨rfl, rfl⟩ := h'
      exact ⟨trivial, pyDictGet_set_self _ _ _, fun him => by rw [him], trivial⟩
    · intro h'
      simp at h'
  | none =>
    simp only [AdAssetStore.create, hhit]
    refine ⟨?_, ?_, ?_⟩
    · by_cases hin : effectiveId asset_id genId ∈ s.order
      · rw [if_pos hin]
        refine ⟨hinv.order_nodup, ?_⟩
        intro x
        by_cases hx : x = effectiveId asset_id genId
        · subst hx
          rw [pyDictGet_set_self]
          simp [hin]
        · rw [pyDictGet_set_ne _ _ _ _ hx]
          exact hinv.mem_iff x
      · rw [if_neg hin]
        refine ⟨?_, ?_⟩
        · rw [List.nodup_append]
          refine ⟨hinv.order_nodup, List.nodup_singleton _, ?_⟩
          intro x hx hx'
          simp only [List.mem_singleton] at hx'
          rw [hx'] at hx
          exact hin hx
        · intro x
          by_cases hx : x = effectiveId asset_id genId
          · subst hx
            rw [pyDictGet_set_self]
            simp
          · rw [pyDictGet_set_ne _ _ _ _ hx]
            rw [List.mem_append]
            simp only [List.mem_singleton]
            constructor
            · intro h
              exact Or.inl ((hinv.mem_iff x).1 h)
            · intro h
              rcases h with h | h
              · exact (hinv.mem_iff x).2 h
              · exact absurd h hx
    · intro aid' asset0' h'
      simp at h'
    · intro _ hnotin
      rw [if_neg hnotin]

theorem create_upsert_witness :
    ({} : AdAssetStore).Inv ∧
    (({} : AdAssetStore).create "P" "S" "T" "Pi" "H" "PT" "C" [] none none
        "asset_1" 0).1.Inv ∧
    (({} : AdAssetStore).create "P" "S" "T" "Pi" "H" "PT" "C" [] none none
        "asset_1" 0).1.order =
      ({} : AdAssetStore).order ++
        [(({} : AdAssetStore).create "P" "S" "T" "Pi" "H" "PT" "C" [] none none
          "asset_1" 0).2.id] := by
  have h := create_upsert {} "P" "S" "T" "Pi" "H" "PT" "C" [] none none
    "asset_1" 0 AdAssetStore.empty_asset_store_inv
  exact ⟨AdAssetStore.empty_asset_store_inv, h.1, h.2.2 rfl (by decide)⟩

end Marketing
